import Mathlib

/-!
Verification development for the FTTH engineering dashboard (`app.py`).

The embedding translates the Python source into Lean:
* Python `str` values become `String`; the string primitives the source uses
  (`upper`, `lower`, `strip`, `split`, `split(",")`, `in`, `startswith`,
  `endswith`) are implemented below on the underlying character lists for the
  ASCII range the application manipulates, so that they compute by `decide`.
* Python floats are embedded as exact numbers: `ℚ` where the code only parses,
  stores and compares values, and `ℝ` where it applies transcendental
  functions (`sin`, `cos`, `sqrt`, `atan2`).  `math.sqrt`'s domain error on a
  negative argument is modelled explicitly where it matters.
* The `xml.etree` element tree is embedded as a tree of tags, text and
  children; namespace resolution (the `k:` prefix) is abstracted away, tags
  are the local names.
* Mutation of the result dictionary in the parser becomes explicit state
  passing of a `Data` record.
-/

/-! ## Python string primitives (ASCII) -/

/-- ASCII whitespace recognised by Python's `str.strip` / `str.split`
(space, tab, newline, carriage return, vertical tab, form feed). -/
def esEspacio (c : Char) : Bool :=
  c = ' ' || c = '\t' || c = '\n' || c = '\r' || c = '\x0b' || c = '\x0c'

/-- ASCII case mapping of one character, as in Python `str.upper`. -/
def mayusCh (c : Char) : Char :=
  if 97 ≤ c.toNat ∧ c.toNat ≤ 122 then Char.ofNat (c.toNat - 32) else c

/-- ASCII case mapping of one character, as in Python `str.lower`. -/
def minusCh (c : Char) : Char :=
  if 65 ≤ c.toNat ∧ c.toNat ≤ 90 then Char.ofNat (c.toNat + 32) else c

/-- Python `s.upper()` (ASCII range; the keyword tables of the source are
all ASCII). -/
def pyUpper (s : String) : String := ⟨s.data.map mayusCh⟩

/-- Python `s.lower()` (ASCII range). -/
def pyLower (s : String) : String := ⟨s.data.map minusCh⟩

/-- Python `s.strip()`: remove leading and trailing whitespace. -/
def pyStrip (s : String) : String :=
  ⟨((s.data.dropWhile esEspacio).reverse.dropWhile esEspacio).reverse⟩

/-- Auxiliary for `pySplitWs`: accumulate maximal runs of non-whitespace. -/
def partirEspaciosGo : List Char → List Char → List (List Char)
  | [], acc => if acc.isEmpty then [] else [acc.reverse]
  | c :: t, acc =>
    if esEspacio c then
      (if acc.isEmpty then partirEspaciosGo t [] else acc.reverse :: partirEspaciosGo t [])
    else partirEspaciosGo t (c :: acc)

/-- Python `s.split()` with no argument: split on runs of whitespace,
discarding empty pieces. -/
def pySplitWs (s : String) : List String :=
  (partirEspaciosGo s.data []).map fun l => ⟨l⟩

/-- Auxiliary for `pySplitComma`. -/
def partirComaGo : List Char → List Char → List (List Char)
  | [], acc => [acc.reverse]
  | c :: t, acc =>
    if c = ',' then acc.reverse :: partirComaGo t [] else partirComaGo t (c :: acc)

/-- Python `s.split(",")`. -/
def pySplitComma (s : String) : List String :=
  (partirComaGo s.data []).map fun l => ⟨l⟩

/-- Character-list prefix test (used for `in`, `startswith`, `endswith`). -/
def esPrefijo (sub cadena : List Char) : Bool :=
  match sub, cadena with
  | [], _ => true
  | c :: resto, d :: cola => decide (c = d) && esPrefijo resto cola
  | _ :: _, [] => false

/-- Auxiliary for `contieneSub`: does `sub` occur in the list? -/
def apareceEn (sub : List Char) : List Char → Bool
  | [] => sub.isEmpty
  | c :: t => esPrefijo sub (c :: t) || apareceEn sub t

/-- Python `sub in hay` on strings. -/
def contieneSub (hay sub : String) : Bool := apareceEn sub.data hay.data

/-- Python `s.startswith(pre)`. -/
def empiezaCon (s pre : String) : Bool := esPrefijo pre.data s.data

/-- Python `s.endswith(suf)`. -/
def terminaCon (s suf : String) : Bool := esPrefijo suf.data.reverse s.data.reverse

/-! ## Python `float(...)` on coordinate tokens

The KMZ parser calls `float` on comma-separated tokens and skips tokens whose
fields raise `ValueError`.  We embed the numeric core of Python's float
grammar exactly — optional sign, decimal digits with an optional point and an
optional exponent — returning the exact rational value (the real code rounds
to the nearest IEEE double; the exact value is the idealisation used
throughout this development).  Exotic accepted forms (`inf`, `nan`,
underscores in digit groups) are not modelled; no input in this development
uses them. -/

/-- Decimal digit value of a character, if it is a digit. -/
def valorDigito (c : Char) : Option ℕ :=
  if 48 ≤ c.toNat ∧ c.toNat ≤ 57 then some (c.toNat - 48) else none

/-- Value of a digit string, `none` if any character is not a digit.
The empty list yields `some 0` (callers enforce non-emptiness). -/
def valorDigitos : List Char → Option ℕ :=
  List.foldl
    (fun acc c =>
      match acc, valorDigito c with
      | some n, some d => some (n * 10 + d)
      | _, _ => none)
    (some 0)

/-- Split a list at the first character satisfying `p`; the second component
is `none` when no such character occurs. -/
def partirEnPrimero (p : Char → Bool) : List Char → List Char × Option (List Char)
  | [] => ([], none)
  | c :: t =>
    if p c then ([], some t)
    else
      let r := partirEnPrimero p t
      (c :: r.1, r.2)

/-- Parse a (signed) exponent part after `e`/`E`. -/
def parseExp (cs : List Char) : Option ℤ :=
  let signoNeg : Bool × List Char :=
    match cs with
    | '-' :: t => (true, t)
    | '+' :: t => (false, t)
    | t => (false, t)
  match signoNeg.2, valorDigitos signoNeg.2 with
  | [], _ => none
  | _, some n => some (if signoNeg.1 then -(n : ℤ) else (n : ℤ))
  | _, none => none

/-- Python `float(s)` restricted to the plain numeric grammar, with the exact
rational result. -/
def pyFloat (s : String) : Option ℚ :=
  let conSigno : Bool × List Char :=
    match s.data with
    | '-' :: t => (true, t)
    | '+' :: t => (false, t)
    | t => (false, t)
  let mantExp := partirEnPrimero (fun c => c = 'e' || c = 'E') conSigno.2
  let entFrac := partirEnPrimero (fun c => c = '.') mantExp.1
  let fracCs : List Char := (entFrac.2).getD []
  if entFrac.1.isEmpty && fracCs.isEmpty then none
  else
    match valorDigitos entFrac.1, valorDigitos fracCs with
    | some ent, some frac =>
      let base : ℚ := (ent : ℚ) + (frac : ℚ) / (10 : ℚ) ^ fracCs.length
      let conExp : Option ℚ :=
        match mantExp.2 with
        | none => some base
        | some ecs =>
          match parseExp ecs with
          | some e => some (base * (10 : ℚ) ^ e)
          | none => none
      match conExp with
      | some q => some (if conSigno.1 then -q else q)
      | none => none
    | _, _ => none

/-! ## Element tree (`xml.etree.ElementTree`)

An element has a tag, a text (Python `elem.text`; `None` and the empty string
are identified, which is harmless because `get_text` treats them alike), and
an ordered list of children.  The KML namespace prefix `k:` used by the
source resolves every tag to its local name here. -/

inductive Xml where
  | node (tag : String) (text : String) (children : List Xml)

/-- The tag of an element. -/
def Xml.tag : Xml → String
  | node t _ _ => t

/-- The text of an element. -/
def Xml.text : Xml → String
  | node _ x _ => x

/-- The children of an element. -/
def Xml.children : Xml → List Xml
  | node _ _ cs => cs

/-- ElementTree `elem.find("k:tag")`: first direct child with the tag. -/
def Xml.findChild (x : Xml) (t : String) : Option Xml :=
  x.children.find? fun c => decide (c.tag = t)

/-- ElementTree `elem.findall("k:tag")`: all direct children with the tag,
in document order. -/
def Xml.findAllChildren (x : Xml) (t : String) : List Xml :=
  x.children.filter fun c => decide (c.tag = t)

/-- Auxiliary for `Xml.findDesc`: first element with the given tag in a
forest, in document (preorder) order. -/
def findDescForest (t : String) : List Xml → Option Xml
  | [] => none
  | Xml.node tg tx cs :: rest =>
    if tg = t then some (Xml.node tg tx cs)
    else
      match findDescForest t cs with
      | some r => some r
      | none => findDescForest t rest

/-- ElementTree `elem.find(".//k:tag")`: first descendant (any depth, the
element itself excluded) with the tag, in document order. -/
def Xml.findDesc (x : Xml) (t : String) : Option Xml :=
  findDescForest t x.children

/-- `get_text` from `parsear_kmz_ftth` (`app.py` line 250): text of an
optional element, stripped, with "" for a missing element or missing text. -/
def get_text (o : Option Xml) : String :=
  match o with
  | some e => pyStrip e.text
  | none => ""

/-- `parse_coordinates` (`app.py` lines 253-270): whitespace-separated
tokens `lon,lat[,alt]` become stored `(lat, lon)` pairs (note the axis
swap); tokens with fewer than two fields or with non-numeric fields are
skipped silently. -/
def parse_coordinates (text_coords : String) : List (ℚ × ℚ) :=
  (pySplitWs (pyStrip text_coords)).filterMap fun token =>
    let parts := pySplitComma token
    if 2 ≤ parts.length then
      match pyFloat parts[0]!, pyFloat parts[1]! with
      | some lon, some lat => some (lat, lon)
      | _, _ => none
    else none

/-! ## The Design Model (`data` dictionary of `parsear_kmz_ftth`) -/

/-- A point element as stored by the parser: `{"name": ..., "lat": ..., "lon": ...}`. -/
structure Punto where
  name : String
  lat : ℚ
  lon : ℚ
deriving DecidableEq, Repr

/-- A cable as stored by the parser: `{"name": ..., "coords": ...}` with
coords a list of `(lat, lon)` pairs. -/
structure Cable where
  name : String
  coords : List (ℚ × ℚ)
deriving DecidableEq, Repr

/-- The `data` dictionary built by `parsear_kmz_ftth` (`app.py` lines
219-227). -/
structure Data where
  nodo : List Punto
  cables_troncales : List Cable
  cables_derivaciones : List Cable
  cables_preconect : List Cable
  cajas_hub : List Punto
  cajas_nap : List Punto
  botellas : List Punto
deriving DecidableEq, Repr

/-- The empty `data` dictionary the parse starts from. -/
def initData : Data := ⟨[], [], [], [], [], [], []⟩

/-- Path concatenation used both for folders and placemarks:
`f"{path}/{name}" if path else name`. -/
def joinPath (path name : String) : String :=
  if path ≠ "" then path ++ "/" ++ name else name

/-- The body of the placemark loop of `walk_folder` (`app.py` lines
282-340): classify one `<Placemark>` of the folder whose accumulated path is
`new_path` and append it to the proper collection.  A placemark carrying a
`<Point>` is handled by the point branch and the line branch is never reached
(the `continue` on line 311), even when the point has no usable coordinates. -/
def processPlacemark (data : Data) (new_path : String) (pm : Xml) : Data :=
  let pm_name := get_text (pm.findChild "name")
  let pm_path := joinPath new_path pm_name
  let p := pyUpper pm_path
  match pm.findDesc "Point" with
  | some point =>
    match parse_coordinates (get_text (point.findChild "coordinates")) with
    | [] => data
    | (lat, lon) :: _ =>
      let punto : Punto := ⟨pm_name, lat, lon⟩
      if contieneSub p "CAJAS NAP" || terminaCon p "/NAP" || contieneSub p "/NAP/" then
        { data with cajas_nap := data.cajas_nap ++ [punto] }
      else if contieneSub p "CAJAS HUB" || terminaCon p "/HUB" || contieneSub p "/HUB/" then
        { data with cajas_hub := data.cajas_hub ++ [punto] }
      else if contieneSub p "FOSC" || contieneSub p "BOTELLA" then
        { data with botellas := data.botellas ++ [punto] }
      else if contieneSub p "/NODO" || empiezaCon p "NODO" || contieneSub p " NODO"
          || terminaCon p "/NODOS" then
        { data with nodo := data.nodo ++ [punto] }
      else
        { data with nodo := data.nodo ++ [punto] }
  | none =>
    match pm.findDesc "LineString" with
    | some line =>
      match parse_coordinates (get_text (line.findChild "coordinates")) with
      | [] => data
      | coords_list =>
        let cable : Cable := ⟨pm_name, coords_list⟩
        if contieneSub p "CABLES TRONCALES" || contieneSub p "TRONCAL" then
          { data with cables_troncales := data.cables_troncales ++ [cable] }
        else if contieneSub p "CABLES DERIVACIONES" || contieneSub p "DERIV" then
          { data with cables_derivaciones := data.cables_derivaciones ++ [cable] }
        else if contieneSub p "CABLES PRECONECTORIZADOS" || contieneSub p "PRECO" then
          { data with cables_preconect := data.cables_preconect ++ [cable] }
        else
          { data with cables_troncales := data.cables_troncales ++ [cable] }
    | none => data

mutual

/-- `walk_folder` (`app.py` lines 272-344), with the mutated dictionary made
an explicit argument: process this folder's placemarks, then recurse into
its `<Folder>` children. -/
def walk_folder (data : Data) (folder_elem : Xml) (path : String) : Data :=
  match folder_elem with
  | Xml.node tg tx children =>
    let folder_name := get_text ((Xml.node tg tx children).findChild "name")
    let new_path := joinPath path folder_name
    let data1 := ((Xml.node tg tx children).findAllChildren "Placemark").foldl
      (fun d pm => processPlacemark d new_path pm) data
    walk_folders data1 children new_path

/-- The loop `for subfolder in folder_elem.findall("k:Folder")` (and the
top-level loop over `document.findall("k:Folder")`): fold `walk_folder` over
the `<Folder>` children, skipping other children. -/
def walk_folders (data : Data) (cs : List Xml) (path : String) : Data :=
  match cs with
  | [] => data
  | c :: rest =>
    walk_folders (if c.tag = "Folder" then walk_folder data c path else data) rest path

end

/-- One entry of the KMZ archive: its file name and (for the payload that is
read) the element tree its bytes parse to.  Byte-level XML parsing is outside
the embedding; an entry carries the already-parsed tree. -/
structure ZipEntry where
  filename : String
  content : Xml

/-- Step 3 of `parsear_kmz_ftth` (`app.py` lines 346-348): walk every
`<Folder>` child of the document, starting with the empty path. -/
def walkDocument (document : Xml) : Data :=
  walk_folders initData document.children ""

/-- `parsear_kmz_ftth` (`app.py` lines 204-350): pick the first archive entry
whose lower-cased name ends in ".kml" (raising `ValueError` — modelled as
`Except.error` — when there is none), locate the `<Document>` element
(falling back to the root), and walk its folders. -/
def parsear_kmz_ftth (entries : List ZipEntry) : Except String Data :=
  match entries.find? (fun info => terminaCon (pyLower info.filename) ".kml") with
  | none => Except.error "El KMZ no contiene ningún archivo .kml"
  | some entry =>
    let root := entry.content
    let document := (root.findChild "Document").getD root
    Except.ok (walkDocument document)

/-! ## Link budget calculator (`calcular_presupuesto`)

All operations here are field arithmetic and comparisons, so the embedding
uses `ℚ` and stays executable.  The integer counts the UI supplies are
embedded as rationals too; the code treats them as plain numbers. -/

/-- The result dictionary of `calcular_presupuesto` (`app.py` lines 72-83). -/
structure Presupuesto where
  perd_fibra : ℚ
  perd_empalmes : ℚ
  perd_conectores : ℚ
  perd_splitters : ℚ
  perd_total : ℚ
  pot_ont : ℚ
  margen : ℚ
  estado : String
  color : String
  comentario : String
deriving DecidableEq, Repr

/-- `calcular_presupuesto` (`app.py` lines 36-83). -/
def calcular_presupuesto (dist_total_km pot_olt_dbm sens_ont_dbm atenuacion_db_km
    n_empalmes n_conectores perd_empalme_db perd_conector_db
    perd_splitter_nap_db perd_splitter_cto_db : ℚ) : Presupuesto :=
  let perd_fibra := dist_total_km * atenuacion_db_km
  let perd_empalmes_total := n_empalmes * perd_empalme_db
  let perd_conectores_total := n_conectores * perd_conector_db
  let perd_splitters_total := perd_splitter_nap_db + perd_splitter_cto_db
  let perd_total :=
    perd_fibra + perd_empalmes_total + perd_conectores_total + perd_splitters_total
  let pot_ont := pot_olt_dbm - perd_total
  let margen := pot_ont - sens_ont_dbm
  if 3 ≤ margen then
    ⟨perd_fibra, perd_empalmes_total, perd_conectores_total, perd_splitters_total,
      perd_total, pot_ont, margen, "OK", "green",
      "El enlace tiene buen margen de ingeniería."⟩
  else if 0 ≤ margen ∧ margen < 3 then
    ⟨perd_fibra, perd_empalmes_total, perd_conectores_total, perd_splitters_total,
      perd_total, pot_ont, margen, "AL LÍMITE", "orange",
      "El enlace está operativo pero con poco margen. Se recomienda revisar diseño."⟩
  else
    ⟨perd_fibra, perd_empalmes_total, perd_conectores_total, perd_splitters_total,
      perd_total, pot_ont, margen, "FUERA DE RANGO", "red",
      "El enlace no cumple con la sensibilidad de la ONT. Revisar diseño / pérdidas."⟩

/-! ## Geometry (`distancia_haversine_km`, `longitud_total_km`,
`nap_mas_cercana`)

These functions apply `math.sin`, `math.cos`, `math.sqrt` and `math.atan2`,
so their embedding lives on `ℝ`.  `math.sqrt` raises `ValueError` on a
negative argument; `pySqrt` and `distancia_haversine_km_checked` make that
explicit, while `distancia_haversine_km` uses the total square root — the
two agree because the intermediate `a` stays within `[0, 1]` in exact
arithmetic (`aTerm_mem`). -/

noncomputable section

/-- `math.radians`. -/
def radians (x : ℝ) : ℝ := x * Real.pi / 180

/-- `math.atan2 y x`: the angle of the point `(x, y)`, by the usual IEEE
piecewise definition (`atan2 0 0 = 0`; signed zeros do not exist on `ℝ`). -/
def atan2 (y x : ℝ) : ℝ :=
  if 0 < x then Real.arctan (y / x)
  else if x < 0 then
    (if 0 ≤ y then Real.arctan (y / x) + Real.pi else Real.arctan (y / x) - Real.pi)
  else if 0 < y then Real.pi / 2
  else if y < 0 then -(Real.pi / 2)
  else 0

/-- The haversine intermediate `a` (`app.py` line 163).  The code feeds it to
the inverse-trigonometric step as is, without clamping it to `[0, 1]`. -/
def aTerm (lat1 lon1 lat2 lon2 : ℝ) : ℝ :=
  Real.sin (radians (lat2 - lat1) / 2) ^ 2 +
    Real.cos (radians lat1) * Real.cos (radians lat2) *
      Real.sin (radians (lon2 - lon1) / 2) ^ 2

/-- `distancia_haversine_km` (`app.py` lines 153-165), with the total square
root of `ℝ`. -/
def distancia_haversine_km (lat1 lon1 lat2 lon2 : ℝ) : ℝ :=
  let R : ℝ := 6371
  let a := aTerm lat1 lon1 lat2 lon2
  let c := 2 * atan2 (Real.sqrt a) (Real.sqrt (1 - a))
  R * c

/-- Python `math.sqrt`, with its `ValueError` on negative arguments made
explicit. -/
def pySqrt (x : ℝ) : Option ℝ := if 0 ≤ x then some (Real.sqrt x) else none

/-- Lines 164-165 of `distancia_haversine_km` as a function of the already
computed intermediate `a`, with `math.sqrt`'s domain error explicit:
`c = 2 * atan2(sqrt(a), sqrt(1 - a)); return R * c`. -/
def haversineDesdeA (a : ℝ) : Option ℝ :=
  match pySqrt a, pySqrt (1 - a) with
  | some sa, some sb => some (6371 * (2 * atan2 sa sb))
  | _, _ => none

/-- `distancia_haversine_km` with `math.sqrt`'s domain error explicit. -/
def distancia_haversine_km_checked (lat1 lon1 lat2 lon2 : ℝ) : Option ℝ :=
  haversineDesdeA (aTerm lat1 lon1 lat2 lon2)

/-- `longitud_total_km` (`app.py` lines 168-179): total polyline length as
the sum of consecutive-pair haversine distances; 0 for fewer than two
points. -/
def longitud_total_km (coords : List (ℝ × ℝ)) : ℝ :=
  if coords.length < 2 then 0
  else
    (coords.zip coords.tail).foldl
      (fun total par => total + distancia_haversine_km par.1.1 par.1.2 par.2.1 par.2.2) 0

/-- A NAP box as consumed by `nap_mas_cercana`: name and real coordinates. -/
structure PuntoR where
  name : String
  lat : ℝ
  lon : ℝ

/-- `nap_mas_cercana` (`app.py` lines 182-197): `(None, None)` on an empty
list, else a linear scan keeping the first strict improvement
(`d < min_dist`). -/
def nap_mas_cercana (lat lon : ℝ) (cajas_nap : List PuntoR) : Option PuntoR × Option ℝ :=
  if cajas_nap.isEmpty then (none, none)
  else
    let r := cajas_nap.foldl
      (fun acc nap =>
        let d := distancia_haversine_km lat lon nap.lat nap.lon
        match acc with
        | (none, _) => (some d, some nap)
        | (some m, mejor) => if d < m then (some d, some nap) else (some m, mejor))
      (none, none)
    (r.2, r.1)

/-! ## Length histogram over preconnectorized cables (`app.py` lines
556-586) -/

/-- `buckets_precon` (`app.py` lines 557-564). -/
def buckets_precon : List (String × ℚ × ℚ) :=
  [("0 a 50 m - CABLE DE 50", 0, 50),
   ("51 a 100 m - CABLE DE 100", 51, 100),
   ("101 a 150 m - CABLE DE 150", 101, 150),
   ("151 a 200 m - CABLE DE 200", 151, 200),
   ("201 a 250 m - CABLE DE 250", 201, 250),
   ("251 a 300 m - CABLE DE 300", 251, 300)]

/-- The inner loop of lines 579-584: the first bucket whose closed interval
`lo <= long_m <= hi` contains the length, if any. -/
def primerBucket : List (String × ℚ × ℚ) → ℝ → Option String
  | [], _ => none
  | (label, lo, hi) :: rest, m =>
    if (lo : ℝ) ≤ m ∧ m ≤ (hi : ℝ) then some label else primerBucket rest m

/-- Lines 579-586: the histogram row a preconnectorized cable of length
`long_m` (meters) is counted in — one of the six bucket labels, the overflow
row "Mayor a 300 m" (line 790) when no bucket matched and `long_m > 300`, or
`none` when the cable is counted nowhere. -/
def cuentaPrecon (long_m : ℝ) : Option String :=
  match primerBucket buckets_precon long_m with
  | some label => some label
  | none => if 300 < long_m then some "Mayor a 300 m" else none

end

/-! ## Specification-side definitions and concrete instances

`reglasPunto`/`specClassifyPoint` follow the specification's wording (an
ordered rule table evaluated top-to-bottom with a default), to be compared
with the classification chain embedded in `processPlacemark`.  The remaining
definitions are concrete inputs used by the theorems below. -/

/-- The point categories of the specification's data model. -/
inductive PointCat where
  | nap_box
  | hub_box
  | splice_enclosure
  | node_cat
deriving DecidableEq, Repr

/-- Modelled from the spec: "the folder-path keyword classification is a flat
rule table — an ordered list of (predicate, category) pairs evaluated
top-to-bottom", with the NAP/HUB segment tests as the code implements them
(path ends with "/NAP" or contains "/NAP/"; likewise for HUB). -/
def reglasPunto : List ((String → Bool) × PointCat) :=
  [(fun p => contieneSub p "CAJAS NAP" || terminaCon p "/NAP" || contieneSub p "/NAP/",
      PointCat.nap_box),
   (fun p => contieneSub p "CAJAS HUB" || terminaCon p "/HUB" || contieneSub p "/HUB/",
      PointCat.hub_box),
   (fun p => contieneSub p "FOSC" || contieneSub p "BOTELLA",
      PointCat.splice_enclosure),
   (fun p => contieneSub p "/NODO" || empiezaCon p "NODO" || contieneSub p " NODO"
        || terminaCon p "/NODOS",
      PointCat.node_cat)]

/-- Modelled from the spec: first matching rule of the table wins; an
unmatched point defaults to NODE. -/
def specClassifyPoint (p : String) : PointCat :=
  ((reglasPunto.find? fun r => r.1 p).map fun r => r.2).getD PointCat.node_cat

/-- Appending a classified point to the collection of its category (how the
Design Model stores each category). -/
def agregaPunto (data : Data) (cat : PointCat) (pt : Punto) : Data :=
  match cat with
  | PointCat.nap_box => { data with cajas_nap := data.cajas_nap ++ [pt] }
  | PointCat.hub_box => { data with cajas_hub := data.cajas_hub ++ [pt] }
  | PointCat.splice_enclosure => { data with botellas := data.botellas ++ [pt] }
  | PointCat.node_cat => { data with nodo := data.nodo ++ [pt] }

/-- The parser stores parsed (rational) coordinates; the geometry functions
consume them as reals.  This is the bridge. -/
def coordsR (l : List (ℚ × ℚ)) : List (ℝ × ℝ) :=
  l.map fun par => ((par.1 : ℝ), (par.2 : ℝ))

/-- A placemark with two LineString sub-paths, first sub-path "0,1 2,3". -/
def pmDosLineas1 : Xml :=
  Xml.node "Placemark" "" [
    Xml.node "name" "C2" [],
    Xml.node "MultiGeometry" "" [
      Xml.node "LineString" "" [Xml.node "coordinates" "0,1 2,3" []],
      Xml.node "LineString" "" [Xml.node "coordinates" "4,5 6,7" []]]]

/-- Like `pmDosLineas1` but with a different second sub-path. -/
def pmDosLineas2 : Xml :=
  Xml.node "Placemark" "" [
    Xml.node "name" "C2" [],
    Xml.node "MultiGeometry" "" [
      Xml.node "LineString" "" [Xml.node "coordinates" "0,1 2,3" []],
      Xml.node "LineString" "" [Xml.node "coordinates" "8,9 10,11" []]]]

/-- A point placemark named "Box1".  Processed inside a top-level folder
named "NAP" (accumulated path "NAP"), its item path is "NAP/Box1", whose only
segment equal to "NAP" is the leading one. -/
def pmBox : Xml :=
  Xml.node "Placemark" "" [
    Xml.node "name" "Box1" [],
    Xml.node "Point" "" [Xml.node "coordinates" "-68.8,-32.9,0" []]]

/-- A placemark holding both a point and a line geometry. -/
def pmPuntoYLinea : Xml :=
  Xml.node "Placemark" "" [
    Xml.node "name" "Mixto" [],
    Xml.node "Point" "" [Xml.node "coordinates" "1,2" []],
    Xml.node "LineString" "" [Xml.node "coordinates" "3,4 5,6" []]]

/-- A placemark that sits directly under the Document container. -/
def pmSuelto : Xml :=
  Xml.node "Placemark" "" [
    Xml.node "name" "suelto" [],
    Xml.node "Point" "" [Xml.node "coordinates" "1,2" []]]

/-- An empty Document element. -/
def docVacio : Xml := Xml.node "Document" "" []

/-! ## Theorems -/

/-- Children that are not `<Folder>` elements are skipped by the folder walk,
wherever they sit in the child list. -/
theorem walk_folders_no_folder (pre : List Xml) :
    ∀ (data : Data) (post : List Xml) (pm : Xml) (path : String), pm.tag ≠ "Folder" →
      walk_folders data (pre ++ pm :: post) path = walk_folders data (pre ++ post) path := by
  induction pre with
  | nil =>
    intro data post pm path h
    simp only [List.nil_append, walk_folders, if_neg h]
  | cons c rest ih =>
    intro data post pm path h
    simp only [List.cons_append, walk_folders]
    exact ih _ _ _ _ h

/-- C10: a placemark that is a direct child of the Document container, not
inside any folder, is never processed: the walk over the Document sees only
its `<Folder>` children, so the resulting Design Model is the same with or
without the stray placemark. -/
theorem claim_C10_document_placemark (tg tx : String) (pre post : List Xml) (pm : Xml)
    (h : pm.tag = "Placemark") :
    walkDocument (Xml.node tg tx (pre ++ pm :: post)) =
      walkDocument (Xml.node tg tx (pre ++ post)) := by
  have hne : pm.tag ≠ "Folder" := by rw [h]; decide
  exact walk_folders_no_folder pre initData post pm "" hne

/-- Witness for C10 at a concrete document. -/
theorem claim_C10_witness :
    pmSuelto.tag = "Placemark" ∧
      walkDocument (Xml.node "Document" "" [pmSuelto]) =
        walkDocument (Xml.node "Document" "" []) :=
  ⟨rfl, claim_C10_document_placemark "Document" "" [] [] pmSuelto rfl⟩

/-- C9: a placemark carrying a `<Point>` geometry is handled entirely by the
point branch (the `continue` of line 311): its possible line geometry is
ignored and no cable collection changes. -/
theorem claim_C9_point_wins (data : Data) (path : String) (pm : Xml)
    (h : (pm.findDesc "Point").isSome = true) :
    (processPlacemark data path pm).cables_troncales = data.cables_troncales ∧
    (processPlacemark data path pm).cables_derivaciones = data.cables_derivaciones ∧
    (processPlacemark data path pm).cables_preconect = data.cables_preconect := by
  obtain ⟨pt, hpt⟩ := Option.isSome_iff_exists.mp h
  simp only [processPlacemark, hpt]
  split
  · exact ⟨rfl, rfl, rfl⟩
  · split_ifs <;> exact ⟨rfl, rfl, rfl⟩

/-- Witness for C9 at a placemark holding both a point and a line. -/
theorem claim_C9_witness :
    (pmPuntoYLinea.findDesc "Point").isSome = true ∧
      ((processPlacemark initData "FTTH" pmPuntoYLinea).cables_troncales =
          initData.cables_troncales ∧
        (processPlacemark initData "FTTH" pmPuntoYLinea).cables_derivaciones =
          initData.cables_derivaciones ∧
        (processPlacemark initData "FTTH" pmPuntoYLinea).cables_preconect =
          initData.cables_preconect) := by
  have h : (pmPuntoYLinea.findDesc "Point").isSome = true := by
    simp +decide [pmPuntoYLinea, Xml.findDesc, findDescForest, Xml.children]
  exact ⟨h, claim_C9_point_wins initData "FTTH" pmPuntoYLinea h⟩

/-- C6: the parser reads the first archive entry whose name ends in ".kml"
case-insensitively, and fails with the missing-payload error — producing no
Design Model at all — when no entry qualifies. -/
theorem claim_C6_first_kml (entries pre post : List ZipEntry) (e : ZipEntry) :
    ((∀ x ∈ entries, terminaCon (pyLower x.filename) ".kml" = false) →
        parsear_kmz_ftth entries =
          Except.error "El KMZ no contiene ningún archivo .kml") ∧
      (terminaCon (pyLower e.filename) ".kml" = true →
        (∀ x ∈ pre, terminaCon (pyLower x.filename) ".kml" = false) →
          parsear_kmz_ftth (pre ++ e :: post) =
            Except.ok (walkDocument ((e.content.findChild "Document").getD e.content))) := by
  constructor
  · intro h
    unfold parsear_kmz_ftth
    have hnone : entries.find? (fun info => terminaCon (pyLower info.filename) ".kml") = none := by
      rw [List.find?_eq_none]
      intro x hx
      rw [h x hx]
      decide
    rw [hnone]
  · intro he hpre
    unfold parsear_kmz_ftth
    have hnone : pre.find? (fun info => terminaCon (pyLower info.filename) ".kml") = none := by
      rw [List.find?_eq_none]
      intro x hx
      rw [hpre x hx]
      decide
    have hsome : List.find? (fun info => terminaCon (pyLower info.filename) ".kml")
        (e :: post) = some e := by
      simp [List.find?_cons, he]
    rw [List.find?_append, hnone, Option.none_or, hsome]

/-- Witness for C6: the error case on a KML-free archive and the success
case picking the first ".KML" entry past a non-matching one. -/
theorem claim_C6_witness :
    parsear_kmz_ftth [⟨"imagen.png", docVacio⟩] =
        Except.error "El KMZ no contiene ningún archivo .kml" ∧
      parsear_kmz_ftth [⟨"imagen.png", docVacio⟩, ⟨"doc.KML", docVacio⟩] =
        Except.ok (walkDocument ((docVacio.findChild "Document").getD docVacio)) :=
  ⟨(claim_C6_first_kml [⟨"imagen.png", docVacio⟩] [] [] ⟨"x", docVacio⟩).1 (by decide),
    (claim_C6_first_kml [] [⟨"imagen.png", docVacio⟩] [] ⟨"doc.KML", docVacio⟩).2
      (by decide) (by decide)⟩

/-- C5: the computed margin classifies the link status with exact
boundaries: margin >= 3 gives OK, 0 <= margin < 3 gives MARGINAL
("AL LÍMITE"), margin < 0 gives OUT_OF_RANGE ("FUERA DE RANGO"); in
particular margin exactly 3 is OK and margin exactly 0 is MARGINAL. -/
theorem claim_C5_clasificacion (d po se a ne nc pe pc sn sc : ℚ) :
    (3 ≤ (calcular_presupuesto d po se a ne nc pe pc sn sc).margen →
        (calcular_presupuesto d po se a ne nc pe pc sn sc).estado = "OK") ∧
      (0 ≤ (calcular_presupuesto d po se a ne nc pe pc sn sc).margen ∧
          (calcular_presupuesto d po se a ne nc pe pc sn sc).margen < 3 →
        (calcular_presupuesto d po se a ne nc pe pc sn sc).estado = "AL LÍMITE") ∧
      ((calcular_presupuesto d po se a ne nc pe pc sn sc).margen < 0 →
        (calcular_presupuesto d po se a ne nc pe pc sn sc).estado = "FUERA DE RANGO") := by
  simp only [calcular_presupuesto]
  split_ifs with h1 h2 <;> dsimp only
  · exact ⟨fun _ => rfl, fun hc => absurd h1 (by linarith [hc.2]), fun hc => absurd h1 (by linarith)⟩
  · exact ⟨fun hc => absurd hc h1, fun _ => rfl, fun hc => absurd h2.1 (by linarith)⟩
  · exact ⟨fun hc => absurd hc h1, fun hc => absurd hc h2, fun _ => rfl⟩

/-- Witness for C5 at the specification's worked example (margin 20.0705,
status OK), and at inputs that put the margin exactly on 3 and on 0. -/
theorem claim_C5_witness :
    (calcular_presupuesto (79/20) 3 (-27) (21/100) 8 6 (1/20) (1/4) (36/5) 0).estado = "OK" ∧
      (calcular_presupuesto 0 3 0 0 0 0 0 0 0 0).estado = "OK" ∧
      (calcular_presupuesto 0 0 0 0 0 0 0 0 0 0).estado = "AL LÍMITE" :=
  ⟨(claim_C5_clasificacion (79/20) 3 (-27) (21/100) 8 6 (1/20) (1/4) (36/5) 0).1
      (by norm_num [calcular_presupuesto]),
    (claim_C5_clasificacion 0 3 0 0 0 0 0 0 0 0).1 (by norm_num [calcular_presupuesto]),
    (claim_C5_clasificacion 0 0 0 0 0 0 0 0 0 0).2.1 (by norm_num [calcular_presupuesto])⟩

/-- The haversine intermediate `a` is symmetric in its two points. -/
theorem aTerm_symm (lat1 lon1 lat2 lon2 : ℝ) :
    aTerm lat1 lon1 lat2 lon2 = aTerm lat2 lon2 lat1 lon1 := by
  unfold aTerm
  have e1 : Real.sin (radians (lat1 - lat2) / 2) ^ 2 =
      Real.sin (radians (lat2 - lat1) / 2) ^ 2 := by
    have h : radians (lat1 - lat2) / 2 = -(radians (lat2 - lat1) / 2) := by
      unfold radians; ring
    rw [h, Real.sin_neg]; ring
  have e2 : Real.sin (radians (lon1 - lon2) / 2) ^ 2 =
      Real.sin (radians (lon2 - lon1) / 2) ^ 2 := by
    have h : radians (lon1 - lon2) / 2 = -(radians (lon2 - lon1) / 2) := by
      unfold radians; ring
    rw [h, Real.sin_neg]; ring
  rw [e1, e2]
  ring

/-- C8: the great-circle distance is symmetric, `d(a,b) = d(b,a)`. -/
theorem claim_C8_simetria (lat1 lon1 lat2 lon2 : ℝ) :
    distancia_haversine_km lat1 lon1 lat2 lon2 = distancia_haversine_km lat2 lon2 lat1 lon1 := by
  simp only [distancia_haversine_km, aTerm_symm lat2 lon2 lat1 lon1]

/-- Invariant of the scan loop of `nap_mas_cercana`, starting from a best
distance `m` for candidate `b`: the final pair is still `some`/`some`, the
final distance is a lower bound for `m` and for every scanned candidate, and
either nothing improved strictly or the final candidate is the last strict
improver, every candidate before it being strictly farther. -/
theorem nap_fold_spec (lat lon : ℝ) (l : List PuntoR) :
    ∀ (m : ℝ) (b : PuntoR),
      ∃ m' b',
        List.foldl
            (fun acc nap =>
              let d := distancia_haversine_km lat lon nap.lat nap.lon
              match acc with
              | (none, _) => (some d, some nap)
              | (some m0, mejor) => if d < m0 then (some d, some nap) else (some m0, mejor))
            (some m, some b) l = (some m', some b') ∧
          m' ≤ m ∧
          (∀ x ∈ l, m' ≤ distancia_haversine_km lat lon x.lat x.lon) ∧
          ((m' = m ∧ b' = b) ∨
            ∃ pre c post,
              l = pre ++ c :: post ∧ b' = c ∧
                m' = distancia_haversine_km lat lon c.lat c.lon ∧
                distancia_haversine_km lat lon c.lat c.lon < m ∧
                ∀ x ∈ pre, m' < distancia_haversine_km lat lon x.lat x.lon) := by
  induction l with
  | nil =>
    intro m b
    exact ⟨m, b, rfl, le_refl m, by simp, Or.inl ⟨rfl, rfl⟩⟩
  | cons y t ih =>
    intro m b
    by_cases hd : distancia_haversine_km lat lon y.lat y.lon < m
    · obtain ⟨m', b', heq, hle, hall, hcase⟩ :=
        ih (distancia_haversine_km lat lon y.lat y.lon) y
      refine ⟨m', b', ?_, ?_, ?_, ?_⟩
      · rw [List.foldl_cons]
        dsimp only
        rw [if_pos hd]
        exact heq
      · exact le_trans hle (le_of_lt hd)
      · intro x hx
        rcases List.mem_cons.mp hx with rfl | hxp
        · exact hle
        · exact hall x hxp
      · rcases hcase with ⟨hm', hb'⟩ | ⟨pre, c, post, ht, hb', hm', hlt, hpre⟩
        · exact Or.inr ⟨[], y, t, rfl, hb', hm', hd, by simp⟩
        · refine Or.inr ⟨y :: pre, c, post, by rw [ht, List.cons_append], hb', hm',
            lt_trans hlt hd, ?_⟩
          intro x hx
          rcases List.mem_cons.mp hx with rfl | hxp
          · rw [hm']
            exact hlt
          · exact hpre x hxp
    · obtain ⟨m', b', heq, hle, hall, hcase⟩ := ih m b
      refine ⟨m', b', ?_, hle, ?_, ?_⟩
      · rw [List.foldl_cons]
        dsimp only
        rw [if_neg hd]
        exact heq
      · intro x hx
        rcases List.mem_cons.mp hx with rfl | hxp
        · exact le_trans hle (not_lt.mp hd)
        · exact hall x hxp
      · rcases hcase with h | ⟨pre, c, post, ht, hb', hm', hlt, hpre⟩
        · exact Or.inl h
        · refine Or.inr ⟨y :: pre, c, post, by rw [ht, List.cons_append], hb', hm', hlt, ?_⟩
          intro x hx
          rcases List.mem_cons.mp hx with rfl | hxp
          · rw [hm']
            exact lt_of_lt_of_le hlt (not_lt.mp hd)
          · exact hpre x hxp

/-- C7: the nearest-point scan returns `(none, none)` exactly on an empty
candidate list; on a non-empty list it returns a candidate of minimal
distance together with that distance, and every candidate placed before the
returned one is strictly farther (ties go to the first in iteration
order). -/
theorem claim_C7_nap_mas_cercana (lat lon : ℝ) (cajas : List PuntoR) :
    (cajas = [] → nap_mas_cercana lat lon cajas = (none, none)) ∧
      (cajas ≠ [] →
        ∃ pre b post,
          cajas = pre ++ b :: post ∧
            nap_mas_cercana lat lon cajas =
              (some b, some (distancia_haversine_km lat lon b.lat b.lon)) ∧
            (∀ x ∈ cajas,
              distancia_haversine_km lat lon b.lat b.lon ≤
                distancia_haversine_km lat lon x.lat x.lon) ∧
            ∀ x ∈ pre,
              distancia_haversine_km lat lon b.lat b.lon <
                distancia_haversine_km lat lon x.lat x.lon) := by
  constructor
  · intro h
    subst h
    rfl
  · intro h
    rcases cajas with _ | ⟨y, t⟩
    · exact absurd rfl h
    obtain ⟨m', b', heq, hle, hall, hcase⟩ :=
      nap_fold_spec lat lon t (distancia_haversine_km lat lon y.lat y.lon) y
    have hres : nap_mas_cercana lat lon (y :: t) = (some b', some m') := by
      unfold nap_mas_cercana
      rw [if_neg (by simp)]
      rw [List.foldl_cons]
      dsimp only
      rw [heq]
    rcases hcase with ⟨hm', hb'⟩ | ⟨pre, c, post, ht, hb', hm', hlt, hpre⟩
    · refine ⟨[], y, t, by simp, ?_, ?_, by simp⟩
      · rw [hres, hm', hb']
      · intro x hx
        rcases List.mem_cons.mp hx with rfl | hxp
        · exact le_refl _
        · rw [← hm']
          exact hall x hxp
    · refine ⟨y :: pre, c, post, by rw [ht, List.cons_append], ?_, ?_, ?_⟩
      · rw [hres, hb', hm']
      · intro x hx
        rcases List.mem_cons.mp hx with rfl | hxp
        · exact le_of_lt hlt
        · rw [← hm']
          exact hall x hxp
      · intro x hx
        rcases List.mem_cons.mp hx with rfl | hxp
        · exact hlt
        · rw [← hm']
          exact hpre x hxp

/-- Witness for C7: the empty-candidates case at a concrete query point. -/
theorem claim_C7_witness : nap_mas_cercana 0 0 [] = (none, none) :=
  (claim_C7_nap_mas_cercana 0 0 []).1 rfl

/-- Product of cosines as a difference of squares (used to bound the
haversine intermediate). -/
theorem cosMulCos (A B : ℝ) :
    Real.cos A * Real.cos B = Real.cos ((A + B) / 2) ^ 2 - Real.sin ((A - B) / 2) ^ 2 := by
  have hA : A = (A + B) / 2 + (A - B) / 2 := by ring
  have hB : B = (A + B) / 2 - (A - B) / 2 := by ring
  calc Real.cos A * Real.cos B
      = Real.cos ((A + B) / 2 + (A - B) / 2) * Real.cos ((A + B) / 2 - (A - B) / 2) := by
        rw [← hA, ← hB]
    _ = Real.cos ((A + B) / 2) ^ 2 - Real.sin ((A - B) / 2) ^ 2 := by
        rw [Real.cos_add, Real.cos_sub]
        have h1 := Real.sin_sq_add_cos_sq ((A + B) / 2)
        have h2 := Real.sin_sq_add_cos_sq ((A - B) / 2)
        linear_combination (-(Real.sin ((A - B) / 2)) ^ 2) * h1 +
          (Real.cos ((A + B) / 2)) ^ 2 * h2

/-- In exact real arithmetic the haversine intermediate `a` always lies in
`[0, 1]`, for arbitrary (even out-of-range) latitudes and longitudes.  Under
IEEE floating point this can fail by rounding, which is what the clamp
required by the specification protects against. -/
theorem aTerm_mem (lat1 lon1 lat2 lon2 : ℝ) :
    0 ≤ aTerm lat1 lon1 lat2 lon2 ∧ aTerm lat1 lon1 lat2 lon2 ≤ 1 := by
  unfold aTerm
  have hd : radians (lat2 - lat1) / 2 = (radians lat2 - radians lat1) / 2 := by
    unfold radians; ring
  rw [hd, cosMulCos (radians lat1) (radians lat2)]
  have hsw : Real.sin ((radians lat1 - radians lat2) / 2) ^ 2 =
      Real.sin ((radians lat2 - radians lat1) / 2) ^ 2 := by
    have h : (radians lat1 - radians lat2) / 2 = -((radians lat2 - radians lat1) / 2) := by
      ring
    rw [h, Real.sin_neg]; ring
  rw [hsw]
  have hp0 : 0 ≤ Real.sin ((radians lat2 - radians lat1) / 2) ^ 2 := sq_nonneg _
  have hp1 : Real.sin ((radians lat2 - radians lat1) / 2) ^ 2 ≤ 1 := Real.sin_sq_le_one _
  have hq0 : 0 ≤ Real.cos ((radians lat1 + radians lat2) / 2) ^ 2 := sq_nonneg _
  have hq1 : Real.cos ((radians lat1 + radians lat2) / 2) ^ 2 ≤ 1 := Real.cos_sq_le_one _
  have hs0 : 0 ≤ Real.sin (radians (lon2 - lon1) / 2) ^ 2 := sq_nonneg _
  have hs1 : Real.sin (radians (lon2 - lon1) / 2) ^ 2 ≤ 1 := Real.sin_sq_le_one _
  constructor
  · nlinarith [mul_nonneg hp0 (sub_nonneg.mpr hs1), mul_nonneg hq0 hs0]
  · nlinarith [mul_nonneg (sub_nonneg.mpr hp1) (sub_nonneg.mpr hs1),
      mul_nonneg (sub_nonneg.mpr hq1) hs0]

/-- `atan2` of a point in the closed first quadrant is a non-negative
angle. -/
theorem atan2_nonneg {y x : ℝ} (hy : 0 ≤ y) (hx : 0 ≤ x) : 0 ≤ atan2 y x := by
  unfold atan2
  split_ifs with h1 h2 h3 h4
  · have hq : 0 ≤ y / x := div_nonneg hy (le_of_lt h1)
    calc (0 : ℝ) = Real.arctan 0 := Real.arctan_zero.symm
      _ ≤ Real.arctan (y / x) := Real.arctan_strictMono.monotone hq
  all_goals first
    | exact le_refl 0
    | linarith [Real.pi_pos]

/-- With exact arithmetic the domain-checked distance never fails and agrees
with the total-square-root embedding. -/
theorem distancia_checked_eq (lat1 lon1 lat2 lon2 : ℝ) :
    distancia_haversine_km_checked lat1 lon1 lat2 lon2 =
      some (distancia_haversine_km lat1 lon1 lat2 lon2) := by
  obtain ⟨h0, h1⟩ := aTerm_mem lat1 lon1 lat2 lon2
  unfold distancia_haversine_km_checked haversineDesdeA pySqrt distancia_haversine_km
  rw [if_pos h0, if_pos (by linarith : (0:ℝ) ≤ 1 - aTerm lat1 lon1 lat2 lon2)]

/-- The great-circle distance is non-negative (exact arithmetic). -/
theorem distancia_haversine_nonneg (lat1 lon1 lat2 lon2 : ℝ) :
    0 ≤ distancia_haversine_km lat1 lon1 lat2 lon2 := by
  unfold distancia_haversine_km
  dsimp only
  have h := atan2_nonneg (Real.sqrt_nonneg (aTerm lat1 lon1 lat2 lon2))
    (Real.sqrt_nonneg (1 - aTerm lat1 lon1 lat2 lon2))
  nlinarith [h]

/-- C1: the inverse-trigonometric step of `distancia_haversine_km` is taken
on the raw intermediate `a`, with no clamp to `[0, 1]`: whenever an overshot
value `a > 1` reaches it — as IEEE rounding can produce for near-antipodal
points — `math.sqrt(1 - a)` raises a domain error instead of returning a
distance.  (In the exact-arithmetic model `a` never overshoots, `aTerm_mem`;
the claimed clamp is absent from the code.) -/
theorem claim_C1_sin_clamp (a : ℝ) (h : 1 < a) : haversineDesdeA a = none := by
  unfold haversineDesdeA pySqrt
  rw [if_pos (by linarith : (0:ℝ) ≤ a), if_neg (by linarith : ¬ (0:ℝ) ≤ 1 - a)]

/-- Witness for C1: an overshot intermediate hits the error path. -/
theorem claim_C1_witness : haversineDesdeA 2 = none :=
  claim_C1_sin_clamp 2 (by norm_num)

/-- C2 (amended): a preconnectorized cable is counted in the first listed
bucket whose closed interval contains its length; when no interval contains
it, it is counted in the overflow row only if its length strictly exceeds
300, and otherwise it is counted nowhere. -/
theorem claim_C2_buckets (m : ℝ) :
    (∀ label lo hi, (label, lo, hi) ∈ buckets_precon → (lo : ℝ) ≤ m → m ≤ (hi : ℝ) →
        cuentaPrecon m = some label) ∧
      ((∀ label lo hi, (label, lo, hi) ∈ buckets_precon → ¬((lo : ℝ) ≤ m ∧ m ≤ (hi : ℝ))) →
        (300 < m → cuentaPrecon m = some "Mayor a 300 m") ∧
          (m ≤ 300 → cuentaPrecon m = none)) := by
  constructor
  · intro label lo hi hmem hlo hhi
    simp only [buckets_precon, List.mem_cons, List.not_mem_nil, or_false,
      Prod.mk.injEq] at hmem
    rcases hmem with h | h | h | h | h | h <;> obtain ⟨rfl, rfl, rfl⟩ := h
    · simp only [cuentaPrecon, primerBucket, buckets_precon]
      rw [if_pos ⟨hlo, hhi⟩]
    · simp only [cuentaPrecon, primerBucket, buckets_precon]
      rw [if_neg (by intro hc; have h2 := hc.2; push_cast at h2 hlo; linarith),
        if_pos ⟨hlo, hhi⟩]
    · simp only [cuentaPrecon, primerBucket, buckets_precon]
      rw [if_neg (by intro hc; have h2 := hc.2; push_cast at h2 hlo; linarith),
        if_neg (by intro hc; have h2 := hc.2; push_cast at h2 hlo; linarith),
        if_pos ⟨hlo, hhi⟩]
    · simp only [cuentaPrecon, primerBucket, buckets_precon]
      rw [if_neg (by intro hc; have h2 := hc.2; push_cast at h2 hlo; linarith),
        if_neg (by intro hc; have h2 := hc.2; push_cast at h2 hlo; linarith),
        if_neg (by intro hc; have h2 := hc.2; push_cast at h2 hlo; linarith),
        if_pos ⟨hlo, hhi⟩]
    · simp only [cuentaPrecon, primerBucket, buckets_precon]
      rw [if_neg (by intro hc; have h2 := hc.2; push_cast at h2 hlo; linarith),
        if_neg (by intro hc; have h2 := hc.2; push_cast at h2 hlo; linarith),
        if_neg (by intro hc; have h2 := hc.2; push_cast at h2 hlo; linarith),
        if_neg (by intro hc; have h2 := hc.2; push_cast at h2 hlo; linarith),
        if_pos ⟨hlo, hhi⟩]
    · simp only [cuentaPrecon, primerBucket, buckets_precon]
      rw [if_neg (by intro hc; have h2 := hc.2; push_cast at h2 hlo; linarith),
        if_neg (by intro hc; have h2 := hc.2; push_cast at h2 hlo; linarith),
        if_neg (by intro hc; have h2 := hc.2; push_cast at h2 hlo; linarith),
        if_neg (by intro hc; have h2 := hc.2; push_cast at h2 hlo; linarith),
        if_neg (by intro hc; have h2 := hc.2; push_cast at h2 hlo; linarith),
        if_pos ⟨hlo, hhi⟩]
  · intro hnone
    have hb : primerBucket buckets_precon m = none := by
      simp only [primerBucket, buckets_precon]
      rw [if_neg (hnone "0 a 50 m - CABLE DE 50" 0 50 (by simp [buckets_precon])),
        if_neg (hnone "51 a 100 m - CABLE DE 100" 51 100 (by simp [buckets_precon])),
        if_neg (hnone "101 a 150 m - CABLE DE 150" 101 150 (by simp [buckets_precon])),
        if_neg (hnone "151 a 200 m - CABLE DE 200" 151 200 (by simp [buckets_precon])),
        if_neg (hnone "201 a 250 m - CABLE DE 250" 201 250 (by simp [buckets_precon])),
        if_neg (hnone "251 a 300 m - CABLE DE 300" 251 300 (by simp [buckets_precon]))]
    constructor
    · intro h300
      simp only [cuentaPrecon]
      rw [hb, if_pos h300]
    · intro h300
      simp only [cuentaPrecon]
      rw [hb, if_neg (not_lt.mpr h300)]

/-- Witness for C2 at lengths 25 (first bucket) and 400 (overflow row). -/
theorem claim_C2_witness :
    cuentaPrecon 25 = some "0 a 50 m - CABLE DE 50" ∧
      cuentaPrecon 400 = some "Mayor a 300 m" :=
  ⟨(claim_C2_buckets 25).1 "0 a 50 m - CABLE DE 50" 0 50 (by simp [buckets_precon])
      (by norm_num) (by norm_num),
    ((claim_C2_buckets 400).2
        (by
          intro label lo hi hmem
          simp only [buckets_precon, List.mem_cons, List.not_mem_nil, or_false,
            Prod.mk.injEq] at hmem
          rcases hmem with h | h | h | h | h | h <;> obtain ⟨rfl, rfl, rfl⟩ := h <;>
            (push_cast; intro hc; linarith [hc.2]))).1
      (by norm_num)⟩

/-- A length in the open gap (50, 51) is counted in no histogram row. -/
theorem gapNone (m : ℝ) (h50 : 50 < m) (h51 : m < 51) : cuentaPrecon m = none := by
  have hb : primerBucket buckets_precon m = none := by
    simp only [primerBucket, buckets_precon]
    rw [if_neg (by push_cast; intro hc; linarith [hc.2]),
      if_neg (by push_cast; intro hc; linarith [hc.1]),
      if_neg (by push_cast; intro hc; linarith [hc.1]),
      if_neg (by push_cast; intro hc; linarith [hc.1]),
      if_neg (by push_cast; intro hc; linarith [hc.1]),
      if_neg (by push_cast; intro hc; linarith [hc.1])]
  simp only [cuentaPrecon]
  rw [hb, if_neg (by linarith)]

/-- The parsed two-point equatorial cable of the counterexample. -/
theorem parse_cable_equatorial :
    parse_coordinates "0,0 0.00045,0" = [(0, 0), (0, 9/20000)] := by
  simp +decide [parse_coordinates, pySplitWs, partirEspaciosGo, pyStrip, pySplitComma,
    partirComaGo, pyFloat, partirEnPrimero, valorDigitos, valorDigito]
  norm_num

/-- The exact length, in meters, of the parsed equatorial cable: along the
equator the haversine distance reduces to arc length, giving 6371π/400
meters (about 50.04 m, inside the open gap between the [0,50] and [51,100]
buckets). -/
theorem longitud_concreta :
    longitud_total_km (coordsR (parse_coordinates "0,0 0.00045,0")) * 1000 =
      6371 * Real.pi / 400 := by
  rw [parse_cable_equatorial]
  have hcr : coordsR [((0:ℚ), 0), (0, 9/20000)] = [((0:ℝ), 0), (0, 9/20000)] := by
    simp [coordsR]
  rw [hcr]
  have hl : longitud_total_km [((0:ℝ), 0), (0, 9/20000)] =
      distancia_haversine_km 0 0 0 (9/20000) := by
    simp [longitud_total_km]
  rw [hl]
  have ha : aTerm 0 0 0 ((9:ℝ)/20000) = Real.sin (radians ((9:ℝ)/20000) / 2) ^ 2 := by
    unfold aTerm radians
    norm_num
  have htval : radians ((9:ℝ)/20000) / 2 = 9 * Real.pi / 7200000 := by
    unfold radians; ring
  have ht0 : 0 < radians ((9:ℝ)/20000) / 2 := by
    rw [htval]; positivity
  have htlt : radians ((9:ℝ)/20000) / 2 < Real.pi / 2 := by
    rw [htval]; nlinarith [Real.pi_pos]
  have hsin : 0 ≤ Real.sin (radians ((9:ℝ)/20000) / 2) :=
    (Real.sin_pos_of_pos_of_lt_pi ht0 (by linarith [Real.pi_pos])).le
  have hcos : 0 < Real.cos (radians ((9:ℝ)/20000) / 2) :=
    Real.cos_pos_of_mem_Ioo ⟨by linarith [Real.pi_pos], htlt⟩
  have hdist : distancia_haversine_km 0 0 0 ((9:ℝ)/20000) =
      6371 * (2 * (radians ((9:ℝ)/20000) / 2)) := by
    unfold distancia_haversine_km
    dsimp only
    rw [ha, Real.sqrt_sq hsin,
      show (1:ℝ) - Real.sin (radians ((9:ℝ)/20000) / 2) ^ 2 =
          Real.cos (radians ((9:ℝ)/20000) / 2) ^ 2 by
        nlinarith [Real.sin_sq_add_cos_sq (radians ((9:ℝ)/20000) / 2)],
      Real.sqrt_sq hcos.le]
    unfold atan2
    rw [if_pos hcos, ← Real.tan_eq_sin_div_cos,
      Real.arctan_tan (by linarith [Real.pi_pos]) htlt]
  rw [hdist]
  unfold radians
  ring

/-- C2 counterexample: a preconnectorized cable parsed from the token string
"0,0 0.00045,0" has length 6371π/400 ≈ 50.04 meters — strictly between 50
and 51 — and the histogram counts it in no bucket at all, contradicting the
claim that every cable is counted. -/
theorem claim_C2_counterexample :
    cuentaPrecon (longitud_total_km (coordsR (parse_coordinates "0,0 0.00045,0")) * 1000) =
      none := by
  rw [longitud_concreta]
  have h1 : 3.141592 < Real.pi := Real.pi_gt_d6
  have h2 : Real.pi < 3.141593 := Real.pi_lt_d6
  exact gapNone _ (by nlinarith) (by nlinarith)


/-- The line branch of `processPlacemark`, for a placemark classified as a
trunk cable: the stored cable carries the placemark's name and the parsed
coordinates of its first LineString. -/
theorem processPlacemark_linea_troncal (data : Data) (path : String) (pm ls : Xml)
    (c0 : ℚ × ℚ) (cs : List (ℚ × ℚ))
    (hp : pm.findDesc "Point" = none)
    (hl : pm.findDesc "LineString" = some ls)
    (hc : parse_coordinates (get_text (ls.findChild "coordinates")) = c0 :: cs)
    (ht : (contieneSub (pyUpper (joinPath path (get_text (pm.findChild "name"))))
          "CABLES TRONCALES" ||
        contieneSub (pyUpper (joinPath path (get_text (pm.findChild "name"))))
          "TRONCAL") = true) :
    processPlacemark data path pm =
      { data with cables_troncales :=
          data.cables_troncales ++ [⟨get_text (pm.findChild "name"), c0 :: cs⟩] } := by
  simp only [processPlacemark, hp, hl, hc]
  rw [if_pos ht]

/-- The point branch of `processPlacemark` when no classification keyword
matches: the point lands in the `nodo` collection (the permissive
default). -/
theorem processPlacemark_punto_nodo (data : Data) (path : String) (pm pt : Xml)
    (lat lon : ℚ) (rest : List (ℚ × ℚ))
    (hpt : pm.findDesc "Point" = some pt)
    (hc : parse_coordinates (get_text (pt.findChild "coordinates")) = (lat, lon) :: rest)
    (h1 : (contieneSub (pyUpper (joinPath path (get_text (pm.findChild "name"))))
          "CAJAS NAP" ||
        terminaCon (pyUpper (joinPath path (get_text (pm.findChild "name")))) "/NAP" ||
        contieneSub (pyUpper (joinPath path (get_text (pm.findChild "name"))))
          "/NAP/") = false)
    (h2 : (contieneSub (pyUpper (joinPath path (get_text (pm.findChild "name"))))
          "CAJAS HUB" ||
        terminaCon (pyUpper (joinPath path (get_text (pm.findChild "name")))) "/HUB" ||
        contieneSub (pyUpper (joinPath path (get_text (pm.findChild "name"))))
          "/HUB/") = false)
    (h3 : (contieneSub (pyUpper (joinPath path (get_text (pm.findChild "name")))) "FOSC" ||
        contieneSub (pyUpper (joinPath path (get_text (pm.findChild "name"))))
          "BOTELLA") = false)
    (h4 : (contieneSub (pyUpper (joinPath path (get_text (pm.findChild "name")))) "/NODO" ||
        empiezaCon (pyUpper (joinPath path (get_text (pm.findChild "name")))) "NODO" ||
        contieneSub (pyUpper (joinPath path (get_text (pm.findChild "name")))) " NODO" ||
        terminaCon (pyUpper (joinPath path (get_text (pm.findChild "name"))))
          "/NODOS") = false) :
    processPlacemark data path pm =
      { data with nodo :=
          data.nodo ++ [⟨get_text (pm.findChild "name"), lat, lon⟩] } := by
  simp only [processPlacemark, hpt, hc]
  rw [if_neg (by simp [h1]), if_neg (by simp [h2]), if_neg (by simp [h3]),
    if_neg (by simp [h4])]

/-- C3 counterexample: a placemark whose geometry holds the two LineString
sub-paths "0,1 2,3" and "4,5 6,7" yields a cable containing only the first
sub-path's (lat, lon) points (1,0),(3,2); the second sub-path's points
(5,4),(7,6) are dropped entirely, contradicting the claim that every
sub-path contributes to the Cable Entity. -/
theorem claim_C3_counterexample :
    processPlacemark initData "CABLES TRONCALES" pmDosLineas1 =
      { initData with cables_troncales := [⟨"C2", [(1, 0), (3, 2)]⟩] } := by
  have hname : get_text (pmDosLineas1.findChild "name") = "C2" := by decide
  have hpt : pmDosLineas1.findDesc "Point" = none := by
    simp +decide [pmDosLineas1, Xml.findDesc, findDescForest, Xml.children]
  have hls : pmDosLineas1.findDesc "LineString" =
      some (Xml.node "LineString" "" [Xml.node "coordinates" "0,1 2,3" []]) := by
    simp +decide [pmDosLineas1, Xml.findDesc, findDescForest, Xml.children]
  have hc : parse_coordinates (get_text
      ((Xml.node "LineString" "" [Xml.node "coordinates" "0,1 2,3" []]).findChild
        "coordinates")) = ((1:ℚ), (0:ℚ)) :: [((3:ℚ), (2:ℚ))] := by
    simp +decide [Xml.findChild, Xml.children, Xml.tag, get_text, Xml.text, pyStrip,
      esEspacio, parse_coordinates, pySplitWs, partirEspaciosGo, pySplitComma, partirComaGo,
      pyFloat, partirEnPrimero, valorDigitos, valorDigito]
  have ht : (contieneSub (pyUpper (joinPath "CABLES TRONCALES"
        (get_text (pmDosLineas1.findChild "name")))) "CABLES TRONCALES" ||
      contieneSub (pyUpper (joinPath "CABLES TRONCALES"
        (get_text (pmDosLineas1.findChild "name")))) "TRONCAL") = true := by
    decide
  rw [processPlacemark_linea_troncal initData "CABLES TRONCALES" pmDosLineas1
      (Xml.node "LineString" "" [Xml.node "coordinates" "0,1 2,3" []])
      ((1:ℚ), (0:ℚ)) [((3:ℚ), (2:ℚ))] hpt hls hc ht, hname]
  simp [initData]

/-- C3 (amended): only the first LineString element of a placemark (in
document order) determines the stored cable: two placemarks with the same
name, no point geometry and the same first LineString are processed
identically, whatever their later sub-paths contain. -/
theorem claim_C3_first_linestring (data : Data) (path : String) (pm1 pm2 : Xml)
    (hname : get_text (pm1.findChild "name") = get_text (pm2.findChild "name"))
    (hp1 : pm1.findDesc "Point" = none) (hp2 : pm2.findDesc "Point" = none)
    (hls : pm1.findDesc "LineString" = pm2.findDesc "LineString") :
    processPlacemark data path pm1 = processPlacemark data path pm2 := by
  unfold processPlacemark
  rw [hname, hp1, hp2, hls]

/-- Witness for C3 at two concrete placemarks differing only in the second
sub-path. -/
theorem claim_C3_witness :
    processPlacemark initData "CABLES TRONCALES" pmDosLineas1 =
      processPlacemark initData "CABLES TRONCALES" pmDosLineas2 := by
  have hname : get_text (pmDosLineas1.findChild "name") =
      get_text (pmDosLineas2.findChild "name") := by decide
  have hp1 : pmDosLineas1.findDesc "Point" = none := by
    simp +decide [pmDosLineas1, Xml.findDesc, findDescForest, Xml.children]
  have hp2 : pmDosLineas2.findDesc "Point" = none := by
    simp +decide [pmDosLineas2, Xml.findDesc, findDescForest, Xml.children]
  have hls : pmDosLineas1.findDesc "LineString" = pmDosLineas2.findDesc "LineString" := by
    have e1 : pmDosLineas1.findDesc "LineString" =
        some (Xml.node "LineString" "" [Xml.node "coordinates" "0,1 2,3" []]) := by
      simp +decide [pmDosLineas1, Xml.findDesc, findDescForest, Xml.children]
    have e2 : pmDosLineas2.findDesc "LineString" =
        some (Xml.node "LineString" "" [Xml.node "coordinates" "0,1 2,3" []]) := by
      simp +decide [pmDosLineas2, Xml.findDesc, findDescForest, Xml.children]
    rw [e1, e2]
  exact claim_C3_first_linestring initData "CABLES TRONCALES" pmDosLineas1 pmDosLineas2
    hname hp1 hp2 hls

/-- C4 counterexample: a point placemark processed in a top-level folder
named "NAP" gets the accumulated item path "NAP/Box1", whose leading segment
is exactly "NAP"; the code files it under `nodo` — not `cajas_nap` — because
it only tests `"CAJAS NAP" in p`, `p.endswith("/NAP")` and `"/NAP/" in p`.
The claim's "path segment exactly NAP gives NAP_BOX" fails on the leading
segment. -/
theorem claim_C4_counterexample :
    processPlacemark initData "NAP" pmBox =
      { initData with nodo := [⟨"Box1", -329/10, -344/5⟩] } := by
  have hname : get_text (pmBox.findChild "name") = "Box1" := by decide
  have hpt : pmBox.findDesc "Point" =
      some (Xml.node "Point" "" [Xml.node "coordinates" "-68.8,-32.9,0" []]) := by
    simp +decide [pmBox, Xml.findDesc, findDescForest, Xml.children]
  have hc : parse_coordinates (get_text
      ((Xml.node "Point" "" [Xml.node "coordinates" "-68.8,-32.9,0" []]).findChild
        "coordinates")) = ((-329/10 : ℚ), (-344/5 : ℚ)) :: [] := by
    simp +decide [Xml.findChild, Xml.children, Xml.tag, get_text, Xml.text, pyStrip,
      esEspacio, parse_coordinates, pySplitWs, partirEspaciosGo, pySplitComma, partirComaGo,
      pyFloat, partirEnPrimero, valorDigitos, valorDigito]
    norm_num
  have h1 : (contieneSub (pyUpper (joinPath "NAP" (get_text (pmBox.findChild "name"))))
        "CAJAS NAP" ||
      terminaCon (pyUpper (joinPath "NAP" (get_text (pmBox.findChild "name")))) "/NAP" ||
      contieneSub (pyUpper (joinPath "NAP" (get_text (pmBox.findChild "name"))))
        "/NAP/") = false := by decide
  have h2 : (contieneSub (pyUpper (joinPath "NAP" (get_text (pmBox.findChild "name"))))
        "CAJAS HUB" ||
      terminaCon (pyUpper (joinPath "NAP" (get_text (pmBox.findChild "name")))) "/HUB" ||
      contieneSub (pyUpper (joinPath "NAP" (get_text (pmBox.findChild "name"))))
        "/HUB/") = false := by decide
  have h3 : (contieneSub (pyUpper (joinPath "NAP" (get_text (pmBox.findChild "name"))))
        "FOSC" ||
      contieneSub (pyUpper (joinPath "NAP" (get_text (pmBox.findChild "name"))))
        "BOTELLA") = false := by decide
  have h4 : (contieneSub (pyUpper (joinPath "NAP" (get_text (pmBox.findChild "name"))))
        "/NODO" ||
      empiezaCon (pyUpper (joinPath "NAP" (get_text (pmBox.findChild "name")))) "NODO" ||
      contieneSub (pyUpper (joinPath "NAP" (get_text (pmBox.findChild "name")))) " NODO" ||
      terminaCon (pyUpper (joinPath "NAP" (get_text (pmBox.findChild "name"))))
        "/NODOS") = false := by decide
  rw [processPlacemark_punto_nodo initData "NAP" pmBox
      (Xml.node "Point" "" [Xml.node "coordinates" "-68.8,-32.9,0" []])
      (-329/10) (-344/5) [] hpt hc h1 h2 h3 h4, hname]
  simp [initData]

/-- C4 (amended): every point placemark is classified by the ordered rule
table with first match winning — contains "CAJAS NAP", or ends with "/NAP",
or contains "/NAP/" gives NAP_BOX (a segment exactly "NAP" other than the
leading one); the same with HUB; contains "FOSC" or "BOTELLA" gives
SPLICE_ENCLOSURE; the NODE tests next; and an unmatched point defaults to
NODE, never dropped. -/
theorem claim_C4_classification (data : Data) (path : String) (pm pt : Xml)
    (lat lon : ℚ) (rest : List (ℚ × ℚ))
    (hpt : pm.findDesc "Point" = some pt)
    (hc : parse_coordinates (get_text (pt.findChild "coordinates")) = (lat, lon) :: rest) :
    processPlacemark data path pm =
      agregaPunto data
        (specClassifyPoint (pyUpper (joinPath path (get_text (pm.findChild "name")))))
        ⟨get_text (pm.findChild "name"), lat, lon⟩ := by
  simp only [processPlacemark, hpt, hc]
  simp only [specClassifyPoint, reglasPunto, agregaPunto, List.find?]
  by_cases h1 : (contieneSub (pyUpper (joinPath path (get_text (pm.findChild "name"))))
      "CAJAS NAP"
      || terminaCon (pyUpper (joinPath path (get_text (pm.findChild "name")))) "/NAP"
      || contieneSub (pyUpper (joinPath path (get_text (pm.findChild "name")))) "/NAP/") = true
  · simp [h1]
  · simp only [h1]
    by_cases h2 : (contieneSub (pyUpper (joinPath path (get_text (pm.findChild "name"))))
        "CAJAS HUB"
        || terminaCon (pyUpper (joinPath path (get_text (pm.findChild "name")))) "/HUB"
        || contieneSub (pyUpper (joinPath path (get_text (pm.findChild "name")))) "/HUB/") =
        true
    · simp [h1, h2]
    · simp only [h2]
      by_cases h3 : (contieneSub (pyUpper (joinPath path (get_text (pm.findChild "name"))))
          "FOSC"
          || contieneSub (pyUpper (joinPath path (get_text (pm.findChild "name"))))
            "BOTELLA") = true
      · simp [h1, h2, h3]
      · simp only [h3]
        by_cases h4 : (contieneSub (pyUpper (joinPath path (get_text (pm.findChild "name"))))
            "/NODO"
            || empiezaCon (pyUpper (joinPath path (get_text (pm.findChild "name")))) "NODO"
            || contieneSub (pyUpper (joinPath path (get_text (pm.findChild "name")))) " NODO"
            || terminaCon (pyUpper (joinPath path (get_text (pm.findChild "name"))))
              "/NODOS") = true
        · simp [h1, h2, h3, h4]
        · simp [h1, h2, h3, h4]

/-- Witness for C4 at a concrete point placemark under the folder path
"CAJAS NAP". -/
theorem claim_C4_witness :
    processPlacemark initData "CAJAS NAP" pmPuntoYLinea =
      agregaPunto initData
        (specClassifyPoint (pyUpper (joinPath "CAJAS NAP"
          (get_text (pmPuntoYLinea.findChild "name")))))
        ⟨get_text (pmPuntoYLinea.findChild "name"), 2, 1⟩ := by
  have hpt : pmPuntoYLinea.findDesc "Point" =
      some (Xml.node "Point" "" [Xml.node "coordinates" "1,2" []]) := by
    simp +decide [pmPuntoYLinea, Xml.findDesc, findDescForest, Xml.children]
  have hc : parse_coordinates (get_text
      ((Xml.node "Point" "" [Xml.node "coordinates" "1,2" []]).findChild "coordinates")) =
      (2, 1) :: [] := by
    simp +decide [Xml.findChild, Xml.children, Xml.tag, get_text, Xml.text, pyStrip,
      esEspacio, parse_coordinates, pySplitWs, partirEspaciosGo, pySplitComma, partirComaGo,
      pyFloat, partirEnPrimero, valorDigitos, valorDigito]
  exact claim_C4_classification initData "CAJAS NAP" pmPuntoYLinea
    (Xml.node "Point" "" [Xml.node "coordinates" "1,2" []]) 2 1 [] hpt hc
